import Mathlib

/-!
Verification of the DronePilotWeb flight command/control engine.

Shallow embedding of:
- `src/components/utils/droneControl/commands.js` (command variants),
- the controller `DroneControl` (command queue, tick loop, cancel/pause/resume),
- `src/components/utils/droneControl/mission.js` (waypoint mission runner),
- the thin `Drone.isControllerActive` wrapper from `src/components/utils/drone.js`.

Modelling conventions:
- JavaScript numbers are modelled as rationals (`ℚ`); all arithmetic in the
  engine is exact on the inputs we reason about.
- `performance.now()` is threaded explicitly: every `start`/`update` takes a
  `now : ℚ` argument.
- `Math.sqrt` and `Math.atan2` are passed in as an explicit `MathOps`
  record: the engine only pipes their results through, never inspects them.
- The single-assignment promise of a command is modelled by the
  `completed`/`error`/`result` fields of `BaseCommand`; a settled promise is
  `completed = true` with `error = some e` (rejected) or `error = none`
  (resolved with `result`).
- A thrown JS exception is modelled as `Except.error` carrying the message.
-/

/-- 3D position `{x, y, z}` (y is the altitude axis, as in three.js). -/
structure Pos3 where
  x : ℚ
  y : ℚ
  z : ℚ
deriving DecidableEq

/-- Low-level motion instruction `{ hover, angle, speed, altitude }`,
the only channel used to drive vehicle motion. -/
structure MotionInstruction where
  hover : Bool
  angle : ℚ
  speed : ℚ
  altitude : ℚ
deriving DecidableEq

/-- Abstracted real-valued library functions used by `MoveToCommand.update`:
`Math.sqrt` and `Math.atan2`.  The engine treats their outputs opaquely. -/
structure MathOps where
  sqrt : ℚ → ℚ
  atan2 : ℚ → ℚ → ℚ

/-- Success payloads handed to a command promise resolution
(`complete(result)`) across the five variants, plus the hover-waypoint
payload produced by `Mission._executeWaypoint`. -/
inductive CmdResult where
  | hoverDone (position : Pos3)
  | takeOffDone (altitude : ℚ) (target : ℚ)
  | landDone (altitude : ℚ)
  | moveToDone (position : Pos3) (targetX : ℚ) (targetY : ℚ) (targetZ : ℚ)
  | rotateDone (angle : ℚ)
  | hovered (durationMs : ℚ)
deriving DecidableEq

/- The constants of `DEFAULT_CONFIG` from `commands.js`. -/
namespace DefaultConfig

def maxSpeed : ℚ := 0.2
def minSpeed : ℚ := 0.05
def positionTolerance : ℚ := 0.08
def altitudeTolerance : ℚ := 0.05
def defaultAltitude : ℚ := 1.0
def groundAltitude : ℚ := 0.05
def timeoutMs : ℚ := 30000
def slowdownDistance : ℚ := 0.3

end DefaultConfig

/-- The `options` bag accepted by the command constructors; `none` models an
absent key (`??` falls back to `DEFAULT_CONFIG`). -/
structure CmdOptions where
  timeoutMs : Option ℚ := none
  maxSpeed : Option ℚ := none
  minSpeed : Option ℚ := none
  positionTolerance : Option ℚ := none
  altitudeTolerance : Option ℚ := none
  slowdownDistance : Option ℚ := none
  groundAltitude : Option ℚ := none
deriving DecidableEq

/-- The read-only drone-state snapshot passed to commands each tick
(`DroneControl.getState()`).  The `currentCommand` constructor-name string of
the JS snapshot is omitted: no command reads it. -/
structure DroneStateSnapshot where
  position : Pos3
  isActive : Bool
  queueLength : ℕ
  stateName : String
  headingRad : ℚ
deriving DecidableEq

/-- Base-class state of every command (`BaseCommand` in `commands.js`):
start timestamp, timeout, and the single-assignment deferred outcome. -/
structure BaseCommand where
  startTime : Option ℚ := none
  timeoutMs : ℚ := DefaultConfig.timeoutMs
  completed : Bool := false
  error : Option String := none
  result : Option CmdResult := none
deriving DecidableEq

namespace BaseCommand

/-- `BaseCommand` constructor: `timeoutMs = options.timeoutMs ?? DEFAULT_CONFIG.timeoutMs`. -/
def mk' (options : CmdOptions) : BaseCommand :=
  { timeoutMs := options.timeoutMs.getD DefaultConfig.timeoutMs }

/-- `complete(result)`: no-op when already settled, else settles the deferred
outcome with a success value. -/
def complete (r : CmdResult) (b : BaseCommand) : BaseCommand :=
  if b.completed then b
  else { b with completed := true, result := some r }

/-- `fail(error)`: no-op when already settled, else settles the deferred
outcome with a failure reason and records it in `error`. -/
def fail (e : String) (b : BaseCommand) : BaseCommand :=
  if b.completed then b
  else { b with completed := true, error := some e }

/-- `cancel()` delegates to `fail(new Error('Command cancelled'))`. -/
def cancel (b : BaseCommand) : BaseCommand :=
  b.fail "Command cancelled"

/-- `start(droneState)`: records the start timestamp. -/
def start (now : ℚ) (b : BaseCommand) : BaseCommand :=
  { b with startTime := some now }

/-- The timeout check at the head of `BaseCommand.update`: if started and
elapsed time exceeds `timeoutMs`, `fail(new Error('Command timeout'))`. -/
def updateBase (now : ℚ) (b : BaseCommand) : BaseCommand :=
  match b.startTime with
  | some t => if now - t > b.timeoutMs then b.fail "Command timeout" else b
  | none => b

end BaseCommand

/-- `HoverCommand`: records the current altitude at `start` and completes
immediately; every tick returns a hover instruction at that altitude.
`targetAltitude = none` models the field being still undefined before
`start`; reading an undefined JS number coerces like `0` under `?? 0`
(`getD 0`), but the controller always starts a command before updating it. -/
structure HoverCommand where
  base : BaseCommand
  targetAltitude : Option ℚ := none
deriving DecidableEq

namespace HoverCommand

def mk' (options : CmdOptions) : HoverCommand :=
  { base := BaseCommand.mk' options }

/-- `start`: record start time and current altitude, then complete at once. -/
def start (now : ℚ) (ds : DroneStateSnapshot) (h : HoverCommand) : HoverCommand :=
  let h := { h with base := h.base.start now, targetAltitude := some ds.position.y }
  { h with base := h.base.complete (.hoverDone ds.position) }

/-- `update`: run the base timeout check, return hover at the recorded altitude. -/
def update (now : ℚ) (_delta : ℚ) (_ds : DroneStateSnapshot) (h : HoverCommand) :
    MotionInstruction × HoverCommand :=
  let h := { h with base := h.base.updateBase now }
  (⟨true, 0, 0, h.targetAltitude.getD 0⟩, h)

end HoverCommand

/-- `TakeOffCommand(altitude, options)`: climb to `targetAltitude`; completion
is debounced over two consecutive in-tolerance ticks via `stableFrames`. -/
structure TakeOffCommand where
  base : BaseCommand
  targetAltitude : ℚ
  altitudeTolerance : ℚ
  stableFrames : ℕ := 0
  lastAltitude : Option ℚ := none
deriving DecidableEq

namespace TakeOffCommand

/-- Constructor: `altitude ?? DEFAULT_CONFIG.defaultAltitude` (the
`altitude : Option ℚ` argument models an absent/undefined JS argument). -/
def mk' (altitude : Option ℚ) (options : CmdOptions) : TakeOffCommand :=
  { base := BaseCommand.mk' options
    targetAltitude := altitude.getD DefaultConfig.defaultAltitude
    altitudeTolerance := options.altitudeTolerance.getD DefaultConfig.altitudeTolerance }

def start (now : ℚ) (ds : DroneStateSnapshot) (t : TakeOffCommand) : TakeOffCommand :=
  { t with base := t.base.start now, lastAltitude := some ds.position.y }

def update (now : ℚ) (_delta : ℚ) (ds : DroneStateSnapshot) (t : TakeOffCommand) :
    MotionInstruction × TakeOffCommand :=
  let t := { t with base := t.base.updateBase now }
  let currentY := ds.position.y
  let diff := |currentY - t.targetAltitude|
  let t :=
    if diff < t.altitudeTolerance then
      let t := { t with stableFrames := t.stableFrames + 1 }
      if t.stableFrames ≥ 2 then
        { t with base := t.base.complete (.takeOffDone currentY t.targetAltitude) }
      else t
    else { t with stableFrames := 0 }
  let t := { t with lastAltitude := some currentY }
  (⟨true, 0, 0, t.targetAltitude⟩, t)

end TakeOffCommand

/-- `LandCommand(options)`: descend to `groundAltitude`, debounced like
`TakeOffCommand`. -/
structure LandCommand where
  base : BaseCommand
  groundAltitude : ℚ
  altitudeTolerance : ℚ
  stableFrames : ℕ := 0
deriving DecidableEq

namespace LandCommand

def mk' (options : CmdOptions) : LandCommand :=
  { base := BaseCommand.mk' options
    groundAltitude := options.groundAltitude.getD DefaultConfig.groundAltitude
    altitudeTolerance := options.altitudeTolerance.getD DefaultConfig.altitudeTolerance }

def start (now : ℚ) (_ds : DroneStateSnapshot) (l : LandCommand) : LandCommand :=
  { l with base := l.base.start now }

def update (now : ℚ) (_delta : ℚ) (ds : DroneStateSnapshot) (l : LandCommand) :
    MotionInstruction × LandCommand :=
  let l := { l with base := l.base.updateBase now }
  let currentY := ds.position.y
  let diff := |currentY - l.groundAltitude|
  let l :=
    if diff < l.altitudeTolerance then
      let l := { l with stableFrames := l.stableFrames + 1 }
      if l.stableFrames ≥ 2 then
        { l with base := l.base.complete (.landDone currentY) }
      else l
    else { l with stableFrames := 0 }
  (⟨true, 0, 0, l.groundAltitude⟩, l)

end LandCommand

/-- `MoveToCommand(target, options)`: fly to a 3D target.  `targetY = none`
models JS `null` ("keep current altitude"), resolved in `start`; where the
JS would arithmetically coerce a `null` to `0`, we use `getD 0`. -/
structure MoveToCommand where
  base : BaseCommand
  targetX : ℚ
  targetY : Option ℚ
  targetZ : ℚ
  maxSpeed : ℚ
  minSpeed : ℚ
  positionTolerance : ℚ
  altitudeTolerance : ℚ
  slowdownDistance : ℚ
  stableFrames : ℕ := 0
deriving DecidableEq

namespace MoveToCommand

/-- The `target` constructor argument: each JS field may be absent. -/
structure Target where
  x : Option ℚ := none
  y : Option ℚ := none
  z : Option ℚ := none
deriving DecidableEq

def mk' (target : Target) (options : CmdOptions) : MoveToCommand :=
  { base := BaseCommand.mk' options
    targetX := target.x.getD 0
    targetY := target.y
    targetZ := target.z.getD 0
    maxSpeed := options.maxSpeed.getD DefaultConfig.maxSpeed
    minSpeed := options.minSpeed.getD DefaultConfig.minSpeed
    positionTolerance := options.positionTolerance.getD DefaultConfig.positionTolerance
    altitudeTolerance := options.altitudeTolerance.getD DefaultConfig.altitudeTolerance
    slowdownDistance := options.slowdownDistance.getD DefaultConfig.slowdownDistance }

/-- `start`: a `null` target altitude resolves to the current altitude. -/
def start (now : ℚ) (ds : DroneStateSnapshot) (m : MoveToCommand) : MoveToCommand :=
  let m := { m with base := m.base.start now }
  if m.targetY = none then { m with targetY := some ds.position.y } else m

def update (mops : MathOps) (now : ℚ) (delta : ℚ) (ds : DroneStateSnapshot)
    (m : MoveToCommand) : MotionInstruction × MoveToCommand :=
  let m := { m with base := m.base.updateBase now }
  let pos := ds.position
  let dx := m.targetX - pos.x
  let dz := m.targetZ - pos.z
  let dy := m.targetY.getD 0 - pos.y
  let horizontalDist := mops.sqrt (dx * dx + dz * dz)
  let altitudeDiff := |dy|
  if horizontalDist < m.positionTolerance ∧ altitudeDiff < m.altitudeTolerance ∧
      m.stableFrames + 1 ≥ 2 then
    let m := { m with stableFrames := m.stableFrames + 1 }
    let m := { m with
      base := m.base.complete (.moveToDone pos m.targetX (m.targetY.getD 0) m.targetZ) }
    (⟨true, 0, 0, m.targetY.getD 0⟩, m)
  else
    let m :=
      if horizontalDist < m.positionTolerance ∧ altitudeDiff < m.altitudeTolerance then
        { m with stableFrames := m.stableFrames + 1 }
      else { m with stableFrames := 0 }
    let angle := mops.atan2 dz dx
    let speed :=
      if horizontalDist < m.positionTolerance * 2 then m.minSpeed
      else if horizontalDist < m.slowdownDistance then
        m.minSpeed + (m.maxSpeed - m.minSpeed) * (horizontalDist / m.slowdownDistance)
      else m.maxSpeed
    let frameDistance := speed * delta
    let speed :=
      if frameDistance > horizontalDist ∧ horizontalDist > m.positionTolerance then
        horizontalDist / delta * 0.8
      else speed
    (⟨false, angle, max speed (m.minSpeed * 0.8), m.targetY.getD 0⟩, m)

end MoveToCommand

/-- `RotateYawCommand(targetAngle, options)`: completes synchronously in
`start`; its `update` does not call the base timeout check. -/
structure RotateYawCommand where
  base : BaseCommand
  targetAngle : ℚ
deriving DecidableEq

namespace RotateYawCommand

def mk' (targetAngle : ℚ) (options : CmdOptions) : RotateYawCommand :=
  { base := BaseCommand.mk' options, targetAngle := targetAngle }

def start (now : ℚ) (_ds : DroneStateSnapshot) (r : RotateYawCommand) : RotateYawCommand :=
  let r := { r with base := r.base.start now }
  { r with base := r.base.complete (.rotateDone r.targetAngle) }

/-- `update` returns a hover instruction at the current altitude; unlike the
other variants it does not call `super.update`, so no timeout check runs. -/
def update (_now : ℚ) (_delta : ℚ) (ds : DroneStateSnapshot) (r : RotateYawCommand) :
    MotionInstruction × RotateYawCommand :=
  (⟨true, 0, 0, ds.position.y⟩, r)

end RotateYawCommand

/-- The closed set of command variants held by the controller queue
(`instanceof`-style dynamic dispatch in JS). -/
inductive AnyCommand where
  | hoverCmd (c : HoverCommand)
  | takeOffCmd (c : TakeOffCommand)
  | landCmd (c : LandCommand)
  | moveToCmd (c : MoveToCommand)
  | rotateYawCmd (c : RotateYawCommand)
deriving DecidableEq

namespace AnyCommand

/-- The shared `BaseCommand` sub-object of any variant. -/
def base : AnyCommand → BaseCommand
  | hoverCmd c => c.base
  | takeOffCmd c => c.base
  | landCmd c => c.base
  | moveToCmd c => c.base
  | rotateYawCmd c => c.base

/-- Apply an inherited `BaseCommand` method to the base sub-object. -/
def mapBase (f : BaseCommand → BaseCommand) : AnyCommand → AnyCommand
  | hoverCmd c => hoverCmd { c with base := f c.base }
  | takeOffCmd c => takeOffCmd { c with base := f c.base }
  | landCmd c => landCmd { c with base := f c.base }
  | moveToCmd c => moveToCmd { c with base := f c.base }
  | rotateYawCmd c => rotateYawCmd { c with base := f c.base }

def startAny (now : ℚ) (ds : DroneStateSnapshot) : AnyCommand → AnyCommand
  | hoverCmd c => hoverCmd (c.start now ds)
  | takeOffCmd c => takeOffCmd (c.start now ds)
  | landCmd c => landCmd (c.start now ds)
  | moveToCmd c => moveToCmd (c.start now ds)
  | rotateYawCmd c => rotateYawCmd (c.start now ds)

def updateAny (mops : MathOps) (now delta : ℚ) (ds : DroneStateSnapshot) :
    AnyCommand → MotionInstruction × AnyCommand
  | hoverCmd c => let r := c.update now delta ds; (r.1, hoverCmd r.2)
  | takeOffCmd c => let r := c.update now delta ds; (r.1, takeOffCmd r.2)
  | landCmd c => let r := c.update now delta ds; (r.1, landCmd r.2)
  | moveToCmd c => let r := c.update mops now delta ds; (r.1, moveToCmd r.2)
  | rotateYawCmd c => let r := c.update now delta ds; (r.1, rotateYawCmd r.2)

end AnyCommand

/-- The command interface the controller consumes.  The controller code only
ever calls these members on queued objects (JS dynamic dispatch); `update`
may throw (`Except.error`). -/
structure CmdOps (σ : Type) where
  completed : σ → Bool
  error : σ → Option String
  cancel : σ → σ
  fail : σ → String → σ
  start : σ → ℚ → DroneStateSnapshot → σ
  update : σ → ℚ → ℚ → DroneStateSnapshot → Except String (MotionInstruction × σ)

/-- The concrete interface of the five shipped command classes: their
`update` never throws. -/
def anyOps (mops : MathOps) : CmdOps AnyCommand :=
  { completed := fun c => c.base.completed
    error := fun c => c.base.error
    cancel := AnyCommand.mapBase BaseCommand.cancel
    fail := fun c e => AnyCommand.mapBase (BaseCommand.fail e) c
    start := fun c now ds => AnyCommand.startAny now ds c
    update := fun c now delta ds => Except.ok (AnyCommand.updateAny mops now delta ds c) }

/-- The slice of `DroneMovement` the controller touches: the attached model
(with its position), the current heading, and the motion-instruction slot
written by `setMovementCommand`. -/
structure DroneMovement where
  model : Option Pos3
  currentAngle : ℚ := 0
  command : Option MotionInstruction := none
deriving DecidableEq

/-- `DroneMovement.setMovementCommand(cmd)`. -/
def DroneMovement.setMovementCommand (i : MotionInstruction) (mv : DroneMovement) :
    DroneMovement :=
  { mv with command := some i }

/-- `ControllerState` from the controller module. -/
inductive ControllerState where
  | idle
  | running
  | paused
deriving DecidableEq

/-- The state-name strings `'idle'/'running'/'paused'`. -/
def ControllerState.name : ControllerState → String
  | .idle => "idle"
  | .running => "running"
  | .paused => "paused"

/-- Observer notifications fired by the controller
(`onCommandStart`/`onCommandComplete`/`onCommandError`/`onStateChange`),
recorded most-recent-first. -/
inductive CtrlEvent (σ : Type) where
  | commandStart (cmd : σ)
  | commandComplete (cmd : σ)
  | commandError (cmd : σ) (e : String)
  | stateChange (old : ControllerState) (new : ControllerState)
deriving DecidableEq

/-- The controller (`DroneControl`), generic over the command objects it
schedules. -/
structure DroneControl (σ : Type) where
  movement : DroneMovement
  state : ControllerState := .idle
  currentCommand : Option σ := none
  commandQueue : List σ := []
  paused : Bool := false
  events : List (CtrlEvent σ) := []
deriving DecidableEq

/-- `new DroneControl(movement)`. -/
def mkDroneControl {σ : Type} (movement : DroneMovement) : DroneControl σ :=
  { movement := movement }

namespace DroneControl

variable {σ : Type}

/-- `isActive()`: a command is executing or queued. -/
def isActive (c : DroneControl σ) : Bool :=
  c.currentCommand.isSome || decide (c.commandQueue.length > 0)

/-- `getState()`: snapshot of position, activity, queue length, state name
and heading. -/
def getSnapshot (c : DroneControl σ) : DroneStateSnapshot :=
  { position := c.movement.model.getD ⟨0, 0, 0⟩
    isActive := c.isActive
    queueLength := c.commandQueue.length
    stateName := c.state.name
    headingRad := c.movement.currentAngle }

/-- `_setState(newState)`: record an `onStateChange` notification when the
state actually changes. -/
def setState (n : ControllerState) (c : DroneControl σ) : DroneControl σ :=
  if c.state ≠ n then
    { c with state := n, events := .stateChange c.state n :: c.events }
  else c

/-- `_startNextCommand()`: dequeue the head, transition to Running, `start`
it on the current snapshot, fire `onCommandStart`. -/
def startNextCommand (ops : CmdOps σ) (now : ℚ) (c : DroneControl σ) : DroneControl σ :=
  match c.commandQueue with
  | [] => c
  | cmd :: rest =>
    let c := { c with currentCommand := some cmd, commandQueue := rest }
    let c := setState .running c
    let ds := c.getSnapshot
    let started := ops.start cmd now ds
    { c with currentCommand := some started, events := .commandStart started :: c.events }

/-- The part of `update(delta)` that runs once a command is current (the
`try`/`catch` around `currentCommand.update` and the completion handling;
split out of `update` for the proofs). -/
def updateCurrent (ops : CmdOps σ) (now delta : ℚ) (c : DroneControl σ) (cmd : σ) :
    DroneControl σ × Bool :=
  let ds := c.getSnapshot
  match ops.update cmd now delta ds with
  | .error e =>
    let failed := ops.fail cmd e
    ({ c with
        currentCommand := none
        events := .commandError failed e :: c.events }, true)
  | .ok (instr, cmd') =>
    let c := { c with movement := c.movement.setMovementCommand instr }
    if ops.completed cmd' then
      let c :=
        if (ops.error cmd').isSome then
          { c with events := .commandError cmd' ((ops.error cmd').getD "") :: c.events }
        else
          { c with events := .commandComplete cmd' :: c.events }
      let c := { c with currentCommand := none }
      let c :=
        if decide (c.commandQueue.length > 0) then startNextCommand ops now c else c
      (c, true)
    else
      ({ c with currentCommand := some cmd' }, true)

/-- `update(delta)`: the per-tick scheduling step.  Returns the new
controller state and the JS return value (`true` iff the controller produced
a motion instruction this tick). -/
def update (ops : CmdOps σ) (now delta : ℚ) (c : DroneControl σ) :
    DroneControl σ × Bool :=
  if c.paused || c.movement.model.isNone then (c, false)
  else
    let c :=
      if c.currentCommand.isNone && decide (c.commandQueue.length > 0) then
        startNextCommand ops now c
      else c
    match c.currentCommand with
    | none => (setState .idle c, false)
    | some cmd => updateCurrent ops now delta c cmd

/-- `enqueue(command)`: FIFO append (the returned promise is the command's
own deferred outcome). -/
def enqueue (cmd : σ) (c : DroneControl σ) : DroneControl σ :=
  { c with commandQueue := c.commandQueue ++ [cmd] }

/-- `cancel()`: cancel the current command and every queued command, reach
Idle, and write a hover instruction at the current altitude.  The returned
list holds the cancelled command objects (whose deferred outcomes the
original callers observe), current first then queue in FIFO order. -/
def cancel (ops : CmdOps σ) (c : DroneControl σ) : DroneControl σ × List σ :=
  let (c, cur) :=
    match c.currentCommand with
    | some cmd => ({ c with currentCommand := none }, [ops.cancel cmd])
    | none => (c, [])
  let cancelledQueue := c.commandQueue.map ops.cancel
  let c := { c with commandQueue := [] }
  let c := setState .idle c
  let c :=
    match c.movement.model with
    | some p => { c with movement := c.movement.setMovementCommand ⟨true, 0, 0, p.y⟩ }
    | none => c
  (c, cur ++ cancelledQueue)

/-- `executeImmediate(command)`: `cancel()` then `enqueue(command)`. -/
def executeImmediate (ops : CmdOps σ) (cmd : σ) (c : DroneControl σ) :
    DroneControl σ × List σ :=
  let (c, settled) := c.cancel ops
  (c.enqueue cmd, settled)

/-- `pause()`: only from Running; set the paused flag, transition to Paused,
and write one hover instruction at the current altitude. -/
def pause (c : DroneControl σ) : DroneControl σ :=
  if c.state = .running then
    let c := { c with paused := true }
    let c := setState .paused c
    match c.movement.model with
    | some p => { c with movement := c.movement.setMovementCommand ⟨true, 0, 0, p.y⟩ }
    | none => c
  else c

/-- `resume()`: only from Paused; clear the paused flag and return to
Running. -/
def resume (c : DroneControl σ) : DroneControl σ :=
  if c.state = .paused then
    let c := { c with paused := false }
    setState .running c
  else c

end DroneControl

/-- `hover()`: always issued through `executeImmediate`. -/
def DroneControl.hoverOp (mops : MathOps) (c : DroneControl AnyCommand) :
    DroneControl AnyCommand × List AnyCommand :=
  c.executeImmediate (anyOps mops) (.hoverCmd (HoverCommand.mk' {}))

/-- `takeOff(altitude, options)`: enqueue a `TakeOffCommand`. -/
def DroneControl.takeOffOp (altitude : Option ℚ) (options : CmdOptions)
    (c : DroneControl AnyCommand) : DroneControl AnyCommand :=
  c.enqueue (.takeOffCmd (TakeOffCommand.mk' altitude options))

/-- `land(options)`: enqueue a `LandCommand`. -/
def DroneControl.landOp (options : CmdOptions) (c : DroneControl AnyCommand) :
    DroneControl AnyCommand :=
  c.enqueue (.landCmd (LandCommand.mk' options))

/-- `moveTo(target, options)`: enqueue a `MoveToCommand`. -/
def DroneControl.moveToOp (target : MoveToCommand.Target) (options : CmdOptions)
    (c : DroneControl AnyCommand) : DroneControl AnyCommand :=
  c.enqueue (.moveToCmd (MoveToCommand.mk' target options))

/-- `rotateYaw(angle, options)`: enqueue a `RotateYawCommand`. -/
def DroneControl.rotateYawOp (angle : ℚ) (options : CmdOptions)
    (c : DroneControl AnyCommand) : DroneControl AnyCommand :=
  c.enqueue (.rotateYawCmd (RotateYawCommand.mk' angle options))

/-- The slice of `Drone` (drone.js) relevant to controller-activity
reporting: the controller and the `_controllerActive` flag recorded by the
most recent tick. -/
structure Drone where
  control : DroneControl AnyCommand
  controllerActive : Bool := false
deriving DecidableEq

/-- The controller part of `Drone.update(delta)`: run the controller tick
and record whether it was active. -/
def Drone.updateTick (mops : MathOps) (now delta : ℚ) (d : Drone) : Drone :=
  let r := d.control.update (anyOps mops) now delta
  { d with control := r.1, controllerActive := r.2 }

/-- `Drone.isControllerActive()`. -/
def Drone.isControllerActive (d : Drone) : Bool :=
  d.controllerActive || d.control.isActive

/-- `MissionState` from `mission.js`. -/
inductive MissionState where
  | pending
  | running
  | pausedState
  | completedState
  | cancelledState
  | failedState
deriving DecidableEq

/-- `WaypointType`. -/
inductive WaypointType where
  | moveToWp
  | takeOffWp
  | landWp
  | hoverWp
deriving DecidableEq

/-- A mission waypoint; optional fields model absent JS keys
(`waypoint.type || 'moveTo'` treats a missing type as `moveTo`). -/
structure Waypoint where
  wpType : Option WaypointType := none
  x : Option ℚ := none
  y : Option ℚ := none
  z : Option ℚ := none
  altitude : Option ℚ := none
  durationMs : Option ℚ := none
  options : CmdOptions := {}
deriving DecidableEq

instance {ε α : Type} [DecidableEq ε] [DecidableEq α] : DecidableEq (Except ε α) :=
  fun x y =>
    match x, y with
    | .ok a, .ok b =>
      if h : a = b then .isTrue (congrArg Except.ok h)
      else .isFalse fun hc => h (Except.ok.inj hc)
    | .error a, .error b =>
      if h : a = b then .isTrue (congrArg Except.error h)
      else .isFalse fun hc => h (Except.error.inj hc)
    | .ok _, .error _ => .isFalse fun hc => Except.noConfusion hc
    | .error _, .ok _ => .isFalse fun hc => Except.noConfusion hc

/-- One entry of the mission `results` log:
`{index, success, result | error}`. -/
structure WpRecord where
  index : ℕ
  success : Bool
  value : Except String CmdResult
deriving DecidableEq

/-- The value the mission promise resolves with on completion. -/
structure MissionResult where
  duration : ℚ
  results : List WpRecord
  waypointsCompleted : ℕ
  waypointsTotal : ℕ
deriving DecidableEq

/-- The `Mission` object. -/
structure Mission where
  waypoints : List Waypoint
  continueOnError : Bool := false
  timeoutMs : ℚ := 300000
  state : MissionState := .pending
  currentIndex : ℕ := 0
  startTime : Option ℚ := none
  results : List WpRecord := []
  settled : Option (Except String MissionResult) := none
deriving DecidableEq

/-- The asynchronous environment a mission run unfolds in.  `Mission.run`
awaits each dispatched controller call across many ticks; the embedding
abstracts each awaited call by its eventual outcome:
- `dispatch i wp` — the settled outcome of `_executeWaypoint` for waypoint
  `i` (the controller promise value, or the hover payload);
- `cancelledAt i` — the value of the mission `cancelled` flag when loop
  iteration `i` begins (the flag is set externally by `Mission.cancel`);
- `timeAt i` — `performance.now()` at the head of loop iteration `i`;
- `startAt` — `performance.now()` when `run` is entered. -/
structure MissionEnv where
  dispatch : ℕ → Waypoint → Except String CmdResult
  cancelledAt : ℕ → Bool
  timeAt : ℕ → ℚ
  startAt : ℚ

/-- The body of the `for` loop of `Mission.run`, recursing over the suffix
`wps` of the waypoint list that starts at index `i`.  Returns the final
mission record and the list of waypoint indices that were dispatched to the
controller. -/
def missionLoop (env : MissionEnv) : List Waypoint → ℕ → Mission → List ℕ →
    Mission × List ℕ
  | [], i, m, dispatched =>
    ({ m with
        state := .completedState
        settled := some (.ok
          { duration := env.timeAt i - m.startTime.getD 0
            results := m.results
            waypointsCompleted := (m.results.filter (·.success)).length
            waypointsTotal := m.waypoints.length }) }, dispatched)
  | wp :: rest, i, m, dispatched =>
    if env.cancelledAt i then
      ({ m with
          state := .cancelledState
          settled := some (.error "Mission cancelled") }, dispatched)
    else if env.timeAt i - m.startTime.getD 0 > m.timeoutMs then
      ({ m with
          state := .failedState
          settled := some (.error "Mission timeout") }, dispatched)
    else
      let m := { m with currentIndex := i }
      match env.dispatch i wp with
      | .ok r =>
        missionLoop env rest (i + 1)
          { m with results := m.results ++ [⟨i, true, .ok r⟩] } (dispatched ++ [i])
      | .error e =>
        let m := { m with results := m.results ++ [⟨i, false, .error e⟩] }
        if !m.continueOnError then
          ({ m with
              state := .failedState
              settled := some (.error e) }, dispatched ++ [i])
        else
          missionLoop env rest (i + 1) m (dispatched ++ [i])

/-- `Mission.run(control)`: the `Option String` is the exception escaping
the `run` call itself (`throw new Error('Mission already started')`); every
other exit path settles the mission promise instead. -/
def missionRun (env : MissionEnv) (m : Mission) : Mission × List ℕ × Option String :=
  if m.state ≠ .pending then
    (m, [], some "Mission already started")
  else
    let m := { m with state := .running, startTime := some env.startAt }
    let r := missionLoop env m.waypoints 0 m []
    (r.1, r.2, none)

/-- `Mission.cancel()`: set the cancellation flag and forward to
`Controller.cancel()`.  (The flag is what later loop iterations observe as
`cancelledAt`.) -/
def missionCancel (ops : CmdOps AnyCommand) (control : DroneControl AnyCommand) :
    Bool × DroneControl AnyCommand :=
  (true, (control.cancel ops).1)

/-- Modelled from the spec's words (§4.1 MoveTo): the three-zone speed
profile with overshoot guard and final floor, used to check the claim's
formula against `MoveToCommand.update`. -/
def specMoveSpeed (minSpeed maxSpeed positionTolerance slowdownDistance d delta : ℚ) : ℚ :=
  let pre :=
    if d < 2 * positionTolerance then minSpeed
    else if d < slowdownDistance then
      minSpeed + (maxSpeed - minSpeed) * (d / slowdownDistance)
    else maxSpeed
  let guarded :=
    if pre * delta > d ∧ d > positionTolerance then 0.8 * d / delta else pre
  max guarded (0.8 * minSpeed)

/-- The result-log entries a fully-traversed waypoint suffix starting at
index `i` produces: one `{index, success, result | error}` record per
waypoint, in order. -/
def wpRecordsFrom (env : MissionEnv) : List Waypoint → ℕ → List WpRecord
  | [], _ => []
  | wp :: rest, i =>
    ⟨i, (env.dispatch i wp).toOption.isSome, env.dispatch i wp⟩ ::
      wpRecordsFrom env rest (i + 1)

/-- Every dispatch along the waypoint suffix starting at index `i`
succeeds. -/
def allOkFrom (env : MissionEnv) : List Waypoint → ℕ → Prop
  | [], _ => True
  | wp :: rest, i => (∃ r, env.dispatch i wp = .ok r) ∧ allOkFrom env rest (i + 1)

/-- Controller states reachable from `new DroneControl(movement)` through
the public API: the intent calls all factor through `enqueue` /
`executeImmediate` (which is also reachable for arbitrary command objects,
since `enqueue` is public). -/
inductive ReachableCtrl (σ : Type) (ops : CmdOps σ) (m0 : DroneMovement) :
    DroneControl σ → Prop where
  | init : ReachableCtrl σ ops m0 (mkDroneControl m0)
  | enqueueStep (cmd : σ) {c : DroneControl σ} :
      ReachableCtrl σ ops m0 c → ReachableCtrl σ ops m0 (c.enqueue cmd)
  | executeImmediateStep (cmd : σ) {c : DroneControl σ} :
      ReachableCtrl σ ops m0 c → ReachableCtrl σ ops m0 (c.executeImmediate ops cmd).1
  | cancelStep {c : DroneControl σ} :
      ReachableCtrl σ ops m0 c → ReachableCtrl σ ops m0 (c.cancel ops).1
  | pauseStep {c : DroneControl σ} :
      ReachableCtrl σ ops m0 c → ReachableCtrl σ ops m0 c.pause
  | resumeStep {c : DroneControl σ} :
      ReachableCtrl σ ops m0 c → ReachableCtrl σ ops m0 c.resume
  | tickStep (now delta : ℚ) {c : DroneControl σ} :
      ReachableCtrl σ ops m0 c → ReachableCtrl σ ops m0 (c.update ops now delta).1

/- Concrete fixtures used by witnesses and counterexamples. -/

/-- Placeholder math library for scenarios whose conclusions do not depend
on `sqrt`/`atan2` values. -/
def mops0 : MathOps := ⟨fun _ => 0, fun _ _ => 0⟩

def posW : Pos3 := ⟨0, 2, 0⟩

def movW : DroneMovement := { model := some posW }

def takeOffCmdW : AnyCommand := .takeOffCmd (TakeOffCommand.mk' (some 1) {})

def landCmdW : AnyCommand := .landCmd (LandCommand.mk' {})

/-- A controller mid-run: a started take-off is current and a landing is
queued. -/
def ctrlW : DroneControl AnyCommand :=
  { movement := movW
    state := .running
    currentCommand := some takeOffCmdW
    commandQueue := [landCmdW] }

/-- A fresh controller right after the public `takeOff` intent call. -/
def ctrlCE : DroneControl AnyCommand := (mkDroneControl movW).takeOffOp (some 1) {}

/-- A command interface whose `update` always throws, exercising the tick's
catch branch (the controller accepts any command object through its public
`enqueue`). -/
def failOpsW : CmdOps Bool :=
  { completed := fun b => b
    error := fun b => if b then some "boom" else none
    cancel := fun _ => true
    fail := fun _ _ => true
    start := fun b _ _ => b
    update := fun _ _ _ _ => .error "boom" }

def ctrlFaultW : DroneControl Bool :=
  { movement := movW, state := .running, currentCommand := some false }

def dsMoveW : DroneStateSnapshot :=
  { position := ⟨0, 1, 0⟩, isActive := true, queueLength := 0
    stateName := "running", headingRad := 0 }

/-- A `MoveToCommand` started at time 0 toward `(10, 1, 0)`. -/
def moveCmdCE : MoveToCommand :=
  (MoveToCommand.mk' ⟨some 10, some 1, some 0⟩ {}).start 0 dsMoveW

/-- Square roots for the counterexample geometry: the only radicand reached
is `100`, whose exact square root is `10`. -/
def mopsMoveCE : MathOps := ⟨fun q => if q = 100 then 10 else 0, fun _ _ => 0⟩

/-- A `TakeOffCommand` started at time 0. -/
def takeOffTimeoutW : TakeOffCommand := (TakeOffCommand.mk' (some 1) {}).start 0 dsMoveW

def dsOriginW : DroneStateSnapshot :=
  { position := ⟨0, 1, 0⟩, isActive := true, queueLength := 0
    stateName := "running", headingRad := 0 }

/-- A `MoveToCommand` started at the origin snapshot toward `(0.5, _, 0.5)`
(altitude resolved to the current 1). -/
def moveCmdW : MoveToCommand :=
  (MoveToCommand.mk' ⟨some (1/2), none, some (1/2)⟩ {}).start 0 dsOriginW

/-- Math library values at the points this scenario reaches:
`sqrt 0.5 ≈ 0.7071`, `atan2 0.5 0.5 ≈ 0.785`. -/
def mopsW6 : MathOps :=
  ⟨fun q => if q = 1/2 then 7071/10000 else 0,
   fun z x => if z = 1/2 ∧ x = 1/2 then 785/1000 else 0⟩

/-- Mission environment with a failure at waypoint 1 and success elsewhere;
never cancelled, never timed out. -/
def envFailW : MissionEnv :=
  { dispatch := fun i _ => if i = 1 then .error "Command timeout" else .ok (.rotateDone 0)
    cancelledAt := fun _ => false
    timeAt := fun _ => 0
    startAt := 0 }

def missionW3 : Mission := { waypoints := [{}, {}, {}] }

def missionW3c : Mission := { waypoints := [{}, {}, {}], continueOnError := true }

/-- Cancellation raised while waypoint 0 is in flight: the controller call
rejects with the cancellation error and the flag reads true from the next
loop iteration on. -/
def envC8 : MissionEnv :=
  { dispatch := fun _ _ => .error "Command cancelled"
    cancelledAt := fun i => decide (1 ≤ i)
    timeAt := fun _ => 0
    startAt := 0 }

def missionC8 : Mission := { waypoints := [{}, {}] }

/-- Environment whose cancellation flag is already up. -/
def envCancelW : MissionEnv :=
  { dispatch := fun _ _ => .ok (.rotateDone 0)
    cancelledAt := fun _ => true
    timeAt := fun _ => 0
    startAt := 0 }

def missionRunningW : Mission := { waypoints := [], state := .running }

def droneW : Drone := { control := mkDroneControl movW, controllerActive := true }

/- Helper lemmas. -/

theorem BaseCommand.fail_spec (b : BaseCommand) (e : String) (h : b.completed = false) :
    b.fail e = { b with completed := true, error := some e } := by
  simp [BaseCommand.fail, h]

theorem BaseCommand.fail_completed (b : BaseCommand) (e : String) :
    (b.fail e).completed = true := by
  unfold BaseCommand.fail
  by_cases h : b.completed <;> simp [h]

theorem BaseCommand.cancel_spec (b : BaseCommand) (h : b.completed = false) :
    b.cancel = { b with completed := true, error := some "Command cancelled" } := by
  simp [BaseCommand.cancel, BaseCommand.fail, h]

theorem AnyCommand.base_mapBase (f : BaseCommand → BaseCommand) (c : AnyCommand) :
    (AnyCommand.mapBase f c).base = f c.base := by
  cases c <;> rfl

theorem DroneControl.setState_movement {σ : Type} (n : ControllerState)
    (c : DroneControl σ) : (c.setState n).movement = c.movement := by
  unfold DroneControl.setState; split <;> rfl

theorem DroneControl.setState_currentCommand {σ : Type} (n : ControllerState)
    (c : DroneControl σ) : (c.setState n).currentCommand = c.currentCommand := by
  unfold DroneControl.setState; split <;> rfl

theorem DroneControl.setState_commandQueue {σ : Type} (n : ControllerState)
    (c : DroneControl σ) : (c.setState n).commandQueue = c.commandQueue := by
  unfold DroneControl.setState; split <;> rfl

theorem DroneControl.setState_paused {σ : Type} (n : ControllerState)
    (c : DroneControl σ) : (c.setState n).paused = c.paused := by
  unfold DroneControl.setState; split <;> rfl

theorem DroneControl.setState_state {σ : Type} (n : ControllerState)
    (c : DroneControl σ) : (c.setState n).state = n := by
  unfold DroneControl.setState
  split
  · rfl
  · next h => exact not_not.mp h

/-- C1: the deferred outcome of a command settles at most once.  Once a first
`complete`/`fail`/`cancel` has settled it (`completed` becomes `true`), any
later `complete`, `fail`, or `cancel` is a no-op leaving the whole record —
the settled `result` value, the `completed` flag and the stored `error` —
unchanged. -/
theorem command_outcome_settles_at_most_once :
    (∀ (b : BaseCommand) (r : CmdResult) (e : String), b.completed = true →
      b.complete r = b ∧ b.fail e = b ∧ b.cancel = b) ∧
    (∀ (b : BaseCommand) (r : CmdResult) (e : String),
      (b.complete r).completed = true ∧ (b.fail e).completed = true ∧
        b.cancel.completed = true) := by
  constructor
  · intro b r e h
    simp [BaseCommand.complete, BaseCommand.fail, BaseCommand.cancel, h]
  · intro b r e
    refine ⟨?_, ?_, ?_⟩ <;>
      simp [BaseCommand.complete, BaseCommand.fail, BaseCommand.cancel] <;>
      by_cases h : b.completed = true <;> simp [h]

/-- Witness for C1 at a concrete command: a fresh command settled by
`complete` ignores a later `cancel`, and all three settlement operations
leave the flag set. -/
theorem command_outcome_settles_at_most_once_witness :
    (({} : BaseCommand).complete (.rotateDone 1)).completed = true ∧
      (({} : BaseCommand).complete (.rotateDone 1)).cancel =
        ({} : BaseCommand).complete (.rotateDone 1) := by
  refine ⟨(command_outcome_settles_at_most_once.2 {} (.rotateDone 1) "x").1, ?_⟩
  exact ((command_outcome_settles_at_most_once.1
    (({} : BaseCommand).complete (.rotateDone 1)) (.rotateDone 1) "x"
    (command_outcome_settles_at_most_once.2 {} (.rotateDone 1) "x").1).2).2

/-- C9: `isActive()` is true exactly when a command is current or the queue
is non-empty; it is already true right after an intent call enqueues a
command (before any tick); and the drone-level `isControllerActive()` is
true whenever the flag recorded by the most recent tick is true, the flag
being exactly the tick's reported activity. -/
theorem controller_isActive_definition :
    (∀ (σ : Type) (c : DroneControl σ),
      c.isActive = true ↔ (c.currentCommand ≠ none ∨ c.commandQueue ≠ [])) ∧
    (∀ (a : Option ℚ) (o : CmdOptions) (c : DroneControl AnyCommand),
      (c.takeOffOp a o).isActive = true) ∧
    (∀ (d : Drone), d.controllerActive = true → d.isControllerActive = true) ∧
    (∀ (mops : MathOps) (now delta : ℚ) (d : Drone),
      (d.updateTick mops now delta).controllerActive =
        (d.control.update (anyOps mops) now delta).2) := by
  refine ⟨?_, ?_, ?_, ?_⟩
  · intro σ c
    cases h : c.currentCommand <;> cases hq : c.commandQueue <;>
      simp [DroneControl.isActive, h, hq]
  · intro a o c
    simp [DroneControl.takeOffOp, DroneControl.enqueue, DroneControl.isActive]
  · intro d h
    simp [Drone.isControllerActive, h]
  · intro mops now delta d
    rfl

/-- Witness for C9: a drone whose last tick reported active, and a fresh
controller right after a `takeOff` intent call. -/
theorem controller_isActive_definition_witness :
    droneW.isControllerActive = true ∧ ctrlCE.isActive = true := by
  refine ⟨controller_isActive_definition.2.2.1 droneW rfl, ?_⟩
  exact controller_isActive_definition.2.1 (some 1) {} (mkDroneControl movW)

/-- Shape of `cancel()` when a command is current and a vehicle is
attached. -/
theorem DroneControl.cancel_eq {σ : Type} (ops : CmdOps σ) (c : DroneControl σ)
    (cur : σ) (p : Pos3) (hcur : c.currentCommand = some cur)
    (hmodel : c.movement.model = some p) :
    c.cancel ops =
      ({ c with
          currentCommand := none
          commandQueue := []
          state := .idle
          events :=
            if c.state ≠ .idle then CtrlEvent.stateChange c.state .idle :: c.events
            else c.events
          movement := c.movement.setMovementCommand ⟨true, 0, 0, p.y⟩ },
       ops.cancel cur :: c.commandQueue.map ops.cancel) := by
  unfold DroneControl.cancel
  rw [hcur]
  unfold DroneControl.setState
  by_cases h : c.state = ControllerState.idle <;> simp [h, hmodel]

/-- C2: with a current command and N queued commands (all still unsettled)
and a vehicle attached, `cancel()` settles them all as Cancelled (none left
unsettled), empties the queue, clears the current command, reaches Idle,
and writes a hover instruction at the vehicle's current altitude;
`executeImmediate(cmd)` performs exactly this `cancel()` and then appends
`cmd` as the sole queued command. -/
theorem cancel_settles_current_and_queue :
    ∀ (mops : MathOps) (c : DroneControl AnyCommand) (cur newCmd : AnyCommand) (p : Pos3),
      c.currentCommand = some cur →
      c.movement.model = some p →
      cur.base.completed = false →
      (∀ q ∈ c.commandQueue, q.base.completed = false) →
      (c.cancel (anyOps mops)).2 =
          (anyOps mops).cancel cur :: c.commandQueue.map (anyOps mops).cancel ∧
      (∀ s ∈ (c.cancel (anyOps mops)).2,
          s.base.completed = true ∧ s.base.error = some "Command cancelled") ∧
      (c.cancel (anyOps mops)).1.currentCommand = none ∧
      (c.cancel (anyOps mops)).1.commandQueue = [] ∧
      (c.cancel (anyOps mops)).1.state = .idle ∧
      (c.cancel (anyOps mops)).1.movement.command = some ⟨true, 0, 0, p.y⟩ ∧
      c.executeImmediate (anyOps mops) newCmd =
          ((c.cancel (anyOps mops)).1.enqueue newCmd, (c.cancel (anyOps mops)).2) ∧
      (c.executeImmediate (anyOps mops) newCmd).1.commandQueue = [newCmd] := by
  intro mops c cur newCmd p hcur hmodel hcu hqu
  have hc := DroneControl.cancel_eq (anyOps mops) c cur p hcur hmodel
  refine ⟨by rw [hc], ?_, by rw [hc], by rw [hc], by rw [hc],
    by rw [hc]; simp [DroneMovement.setMovementCommand], ?_, ?_⟩
  · intro s hs
    rw [hc] at hs
    rcases List.mem_cons.mp hs with h | h
    · subst h
      rw [show ((anyOps mops).cancel cur).base = cur.base.cancel from
          AnyCommand.base_mapBase BaseCommand.cancel cur,
        BaseCommand.cancel_spec cur.base hcu]
      exact ⟨rfl, rfl⟩
    · rcases List.mem_map.mp h with ⟨q, hq, rfl⟩
      rw [show ((anyOps mops).cancel q).base = q.base.cancel from
          AnyCommand.base_mapBase BaseCommand.cancel q,
        BaseCommand.cancel_spec q.base (hqu q hq)]
      exact ⟨rfl, rfl⟩
  · rfl
  · show ((c.cancel (anyOps mops)).1.enqueue newCmd).commandQueue = [newCmd]
    rw [hc]
    rfl

/-- Witness for C2: controller with a started take-off current and a landing
queued, vehicle at altitude 2. -/
theorem cancel_settles_current_and_queue_witness :
    (ctrlW.cancel (anyOps mops0)).1.state = .idle ∧
      (ctrlW.cancel (anyOps mops0)).1.commandQueue = [] ∧
      (ctrlW.cancel (anyOps mops0)).1.movement.command = some ⟨true, 0, 0, 2⟩ ∧
      (∀ s ∈ (ctrlW.cancel (anyOps mops0)).2,
        s.base.completed = true ∧ s.base.error = some "Command cancelled") ∧
      (ctrlW.executeImmediate (anyOps mops0) landCmdW).1.commandQueue = [landCmdW] := by
  have h := cancel_settles_current_and_queue mops0 ctrlW takeOffCmdW landCmdW posW
    rfl rfl rfl (by decide)
  exact ⟨h.2.2.2.2.1, h.2.2.2.1, h.2.2.2.2.2.1, h.2.1, h.2.2.2.2.2.2.2⟩

/-- C3: a fault raised while computing the current command's update during a
tick never escapes `update(delta)`: the tick catches it, calls `fail` on the
current command (settling an unsettled outcome with that fault, by the
second part), emits an error notification carrying the failed command, and
clears the current command; the tick still returns `true`. -/
theorem tick_catches_command_faults :
    (∀ (σ : Type) (ops : CmdOps σ) (c : DroneControl σ) (cmd : σ) (f : String)
        (now delta : ℚ),
      c.paused = false →
      c.movement.model.isSome = true →
      c.currentCommand = some cmd →
      ops.update cmd now delta c.getSnapshot = .error f →
      c.update ops now delta =
        ({ c with
            currentCommand := none
            events := .commandError (ops.fail cmd f) f :: c.events }, true)) ∧
    (∀ (b : BaseCommand) (f : String), b.completed = false →
      (b.fail f).completed = true ∧ (b.fail f).error = some f) := by
  constructor
  · intro σ ops c cmd f now delta hp hm hcur hup
    unfold DroneControl.update
    simp only [Option.isSome_iff_exists] at hm
    obtain ⟨p, hp'⟩ := hm
    simp [DroneControl.updateCurrent, hp, hp', hcur, hup]
  · intro b f h
    rw [BaseCommand.fail_spec b f h]
    exact ⟨rfl, rfl⟩

/-- Witness for C3: a command object whose `update` throws `"boom"`; the
tick returns normally with the fault recorded, and a concrete unsettled
base command is settled by `fail`. -/
theorem tick_catches_command_faults_witness :
    ctrlFaultW.update failOpsW 0 1 =
      ({ ctrlFaultW with
          currentCommand := none
          events := [.commandError true "boom"] }, true) ∧
      (({} : BaseCommand).fail "boom").completed = true := by
  constructor
  · exact tick_catches_command_faults.1 Bool failOpsW ctrlFaultW false "boom" 0 1
      rfl rfl rfl rfl
  · exact (tick_catches_command_faults.2 {} "boom" rfl).1

theorem DroneControl.startNext_state {σ : Type} (ops : CmdOps σ) (now : ℚ)
    (c : DroneControl σ) (h : c.commandQueue ≠ []) :
    (c.startNextCommand ops now).state = .running := by
  cases hq : c.commandQueue with
  | nil => exact absurd hq h
  | cons a l =>
    unfold DroneControl.startNextCommand
    rw [hq]
    simp [DroneControl.setState_state]

theorem DroneControl.startNext_currentCommand_isSome {σ : Type} (ops : CmdOps σ)
    (now : ℚ) (c : DroneControl σ) (h : c.commandQueue ≠ []) :
    (c.startNextCommand ops now).currentCommand.isSome = true := by
  cases hq : c.commandQueue with
  | nil => exact absurd hq h
  | cons a l =>
    unfold DroneControl.startNextCommand
    rw [hq]
    simp

theorem DroneControl.cancel_fst_currentCommand {σ : Type} (ops : CmdOps σ)
    (c : DroneControl σ) : (c.cancel ops).1.currentCommand = none := by
  unfold DroneControl.cancel
  cases hcur : c.currentCommand <;>
    simp [hcur, DroneControl.setState_currentCommand] <;>
    split <;>
    simp [DroneControl.setState_currentCommand]

theorem DroneControl.pause_eq_of_not_running {σ : Type} (c : DroneControl σ)
    (h : ¬ c.state = .running) : c.pause = c := by
  unfold DroneControl.pause
  rw [if_neg h]

theorem DroneControl.pause_state_of_running {σ : Type} (c : DroneControl σ)
    (h : c.state = .running) : c.pause.state = .paused := by
  unfold DroneControl.pause
  rw [if_pos h]
  simp only [DroneControl.setState_movement]
  split <;> simp [DroneControl.setState_state]

theorem DroneControl.resume_eq_of_not_paused {σ : Type} (c : DroneControl σ)
    (h : ¬ c.state = .paused) : c.resume = c := by
  unfold DroneControl.resume
  rw [if_neg h]

theorem DroneControl.resume_state_of_paused {σ : Type} (c : DroneControl σ)
    (h : c.state = .paused) : c.resume.state = .running := by
  unfold DroneControl.resume
  rw [if_pos h]
  simp [DroneControl.setState_state]

theorem DroneControl.updateCurrent_cases {σ : Type} (ops : CmdOps σ) (now delta : ℚ)
    (c : DroneControl σ) (cmd : σ) :
    (DroneControl.updateCurrent ops now delta c cmd).1.currentCommand = none ∨
    (DroneControl.updateCurrent ops now delta c cmd).1.state = .running ∨
    (DroneControl.updateCurrent ops now delta c cmd).1.state = c.state := by
  unfold DroneControl.updateCurrent
  simp only []
  cases hu : ops.update cmd now delta c.getSnapshot with
  | error e => left; rfl
  | ok p =>
    obtain ⟨instr, cmd'⟩ := p
    by_cases hcomp : ops.completed cmd' = true
    · by_cases herr : (ops.error cmd').isSome = true
      · by_cases hq : decide (c.commandQueue.length > 0) = true
        · right; left
          simp only [hcomp, herr, hq, if_pos, if_true]
          exact DroneControl.startNext_state ops now _ (by
            intro hnil
            simp at hnil
            rw [hnil] at hq
            simp at hq)
        · left
          simp [hcomp, herr, hq]
      · by_cases hq : decide (c.commandQueue.length > 0) = true
        · right; left
          simp only [hcomp, herr, hq, if_pos, if_true, if_false, Bool.false_eq_true]
          exact DroneControl.startNext_state ops now _ (by
            intro hnil
            simp at hnil
            rw [hnil] at hq
            simp at hq)
        · left
          simp [hcomp, herr, hq]
    · right; right
      simp [hcomp]

theorem DroneControl.update_result_cases {σ : Type} (ops : CmdOps σ) (now delta : ℚ)
    (c : DroneControl σ) :
    (c.update ops now delta).1.currentCommand = none ∨
    (c.update ops now delta).1.state = .running ∨
    (c.update ops now delta).1 = c ∨
    ((c.update ops now delta).1.state = c.state ∧ c.currentCommand.isSome = true) := by
  unfold DroneControl.update
  by_cases hpm : (c.paused || c.movement.model.isNone) = true
  · rw [if_pos hpm]
    right; right; left; rfl
  · rw [if_neg hpm]
    by_cases hg : (c.currentCommand.isNone && decide (c.commandQueue.length > 0)) = true
    · rw [if_pos hg]
      have hne : c.commandQueue ≠ [] := by
        intro hnil
        simp [hnil] at hg
      cases hsc : (c.startNextCommand ops now).currentCommand with
      | none =>
        left
        simp [hsc, DroneControl.setState_currentCommand]
      | some cmd =>
        rcases DroneControl.updateCurrent_cases ops now delta
            (c.startNextCommand ops now) cmd with h3 | h3 | h3
        · left; simpa [hsc] using h3
        · right; left; simpa [hsc] using h3
        · right; left
          have hs := DroneControl.startNext_state ops now c hne
          simp only [hsc]
          rw [h3, hs]
    · rw [if_neg hg]
      cases hcur : c.currentCommand with
      | none =>
        left
        simp [hcur, DroneControl.setState_currentCommand]
      | some cmd =>
        rcases DroneControl.updateCurrent_cases ops now delta c cmd with h3 | h3 | h3
        · left; simpa [hcur] using h3
        · right; left; simpa [hcur] using h3
        · right; right; right
          exact ⟨by simpa [hcur] using h3, by simp [hcur]⟩

/-- C4 (amended): over every controller state reachable through the public
API (enqueue-based intents, `executeImmediate`, `cancel`, `pause`, `resume`,
and ticks), Idle implies no current command; at most one command is ever
current (`currentCommand` is a single optional slot by construction).  The
claimed full equivalence `Idle ⟺ no current ∧ empty queue` does not hold:
see the counterexample. -/
theorem controller_idle_has_no_current :
    ∀ (σ : Type) (ops : CmdOps σ) (m0 : DroneMovement) (c : DroneControl σ),
      ReachableCtrl σ ops m0 c → c.state = .idle → c.currentCommand = none := by
  intro σ ops m0 c h
  induction h with
  | init => intro _; rfl
  | enqueueStep cmd _ ih => exact ih
  | executeImmediateStep cmd _ ih =>
    intro _
    exact DroneControl.cancel_fst_currentCommand ops _
  | cancelStep _ ih =>
    intro _
    exact DroneControl.cancel_fst_currentCommand ops _
  | pauseStep _ ih =>
    rename_i c' _
    by_cases hr : c'.state = .running
    · intro hidle
      rw [DroneControl.pause_state_of_running c' hr] at hidle
      exact absurd hidle (by decide)
    · rw [DroneControl.pause_eq_of_not_running c' hr]
      exact ih
  | resumeStep _ ih =>
    rename_i c' _
    by_cases hr : c'.state = .paused
    · intro hidle
      rw [DroneControl.resume_state_of_paused c' hr] at hidle
      exact absurd hidle (by decide)
    · rw [DroneControl.resume_eq_of_not_paused c' hr]
      exact ih
  | tickStep now delta _ ih =>
    rename_i c' _
    rcases DroneControl.update_result_cases ops now delta c' with h | h | h | ⟨hs, hx⟩
    · intro _; exact h
    · intro hidle
      rw [h] at hidle
      exact absurd hidle (by decide)
    · rw [h]; exact ih
    · intro hidle
      rw [hs] at hidle
      have := ih hidle
      rw [this] at hx
      simp at hx

/-- Witness for C4 at the initial controller: reachable and Idle, hence no
current command. -/
theorem controller_idle_has_no_current_witness :
    (mkDroneControl movW : DroneControl AnyCommand).currentCommand = none :=
  controller_idle_has_no_current AnyCommand (anyOps mops0) movW
    (mkDroneControl movW) ReachableCtrl.init rfl

/-- Counterexample to C4 as stated: after the public `takeOff` intent call
on a fresh controller (one public operation), the controller is Idle with a
non-empty queue, so `Idle ⟺ (no current ∧ empty queue)` fails. -/
theorem controller_idle_invariant_counterexample :
    ctrlCE.state = .idle ∧ ctrlCE.currentCommand = none ∧
      ctrlCE.commandQueue ≠ [] ∧
      ¬(ctrlCE.state = .idle ↔
          (ctrlCE.currentCommand = none ∧ ctrlCE.commandQueue = [])) := by
  refine ⟨rfl, rfl, by decide, ?_⟩
  intro hiff
  have := (hiff.mp rfl).2
  exact absurd this (by decide)

theorem BaseCommand.updateBase_timeout (b : BaseCommand) (s now : ℚ)
    (h1 : b.startTime = some s) (h2 : now - s > b.timeoutMs)
    (h3 : b.completed = false) :
    b.updateBase now = { b with completed := true, error := some "Command timeout" } := by
  unfold BaseCommand.updateBase
  rw [h1]
  simp only []
  rw [if_pos h2, BaseCommand.fail_spec b _ h3, h1]

/-- C5 (amended): a started, not-yet-settled command whose elapsed time
exceeds its timeout is settled as a `Command timeout` failure by the base
timeout check on the next `update`; TakeOff/Land/Hover do return a hover
(speed 0) instruction on that same tick, but MoveTo returns its normal
motion instruction (hover false whenever the arrival debounce has not
completed — see the counterexample), and RotateYaw's `update` skips the
timeout check entirely (it leaves the command untouched). -/
theorem command_timeout_settlement :
    (∀ (now s delta : ℚ) (ds : DroneStateSnapshot) (t : TakeOffCommand),
      t.base.startTime = some s → now - s > t.base.timeoutMs →
      t.base.completed = false →
      (t.update now delta ds).2.base.completed = true ∧
      (t.update now delta ds).2.base.error = some "Command timeout" ∧
      (t.update now delta ds).1 = ⟨true, 0, 0, t.targetAltitude⟩) ∧
    (∀ (now s delta : ℚ) (ds : DroneStateSnapshot) (l : LandCommand),
      l.base.startTime = some s → now - s > l.base.timeoutMs →
      l.base.completed = false →
      (l.update now delta ds).2.base.completed = true ∧
      (l.update now delta ds).2.base.error = some "Command timeout" ∧
      (l.update now delta ds).1 = ⟨true, 0, 0, l.groundAltitude⟩) ∧
    (∀ (now s delta : ℚ) (ds : DroneStateSnapshot) (h : HoverCommand),
      h.base.startTime = some s → now - s > h.base.timeoutMs →
      h.base.completed = false →
      (h.update now delta ds).2.base.completed = true ∧
      (h.update now delta ds).2.base.error = some "Command timeout" ∧
      (h.update now delta ds).1 = ⟨true, 0, 0, h.targetAltitude.getD 0⟩) ∧
    (∀ (mops : MathOps) (now s delta : ℚ) (ds : DroneStateSnapshot)
        (m : MoveToCommand),
      m.base.startTime = some s → now - s > m.base.timeoutMs →
      m.base.completed = false →
      (m.update mops now delta ds).2.base.completed = true ∧
      (m.update mops now delta ds).2.base.error = some "Command timeout") ∧
    (∀ (now delta : ℚ) (ds : DroneStateSnapshot) (r : RotateYawCommand),
      (r.update now delta ds).2 = r) := by
  refine ⟨?_, ?_, ?_, ?_, ?_⟩
  · intro now s delta ds t h1 h2 h3
    have hb := BaseCommand.updateBase_timeout t.base s now h1 h2 h3
    unfold TakeOffCommand.update
    rw [hb]
    refine ⟨?_, ?_, ?_⟩ <;>
      (simp only []; split <;> (try split) <;> simp [BaseCommand.complete])
  · intro now s delta ds l h1 h2 h3
    have hb := BaseCommand.updateBase_timeout l.base s now h1 h2 h3
    unfold LandCommand.update
    rw [hb]
    refine ⟨?_, ?_, ?_⟩ <;>
      (simp only []; split <;> (try split) <;> simp [BaseCommand.complete])
  · intro now s delta ds h h1 h2 h3
    have hb := BaseCommand.updateBase_timeout h.base s now h1 h2 h3
    unfold HoverCommand.update
    rw [hb]
    exact ⟨rfl, rfl, rfl⟩
  · intro mops now s delta ds m h1 h2 h3
    have hb := BaseCommand.updateBase_timeout m.base s now h1 h2 h3
    unfold MoveToCommand.update
    rw [hb]
    constructor <;>
      (simp only []; split <;> (try split) <;> simp [BaseCommand.complete])
  · intro now delta ds r
    rfl

/-- Witness for C5 (amended) at a concrete timed-out take-off. -/
theorem command_timeout_settlement_witness :
    (takeOffTimeoutW.update 30001 (1/60) dsMoveW).2.base.completed = true ∧
      (takeOffTimeoutW.update 30001 (1/60) dsMoveW).2.base.error =
        some "Command timeout" ∧
      (takeOffTimeoutW.update 30001 (1/60) dsMoveW).1 = ⟨true, 0, 0, 1⟩ :=
  command_timeout_settlement.1 30001 0 (1/60) dsMoveW takeOffTimeoutW
    rfl (by norm_num [TakeOffCommand.mk', BaseCommand.mk', DefaultConfig.timeoutMs,
      takeOffTimeoutW, TakeOffCommand.start, BaseCommand.start]) rfl

/-- Counterexample to C5 as stated: a timed-out MoveTo still far from its
target settles as `Command timeout` on this tick but returns a moving
instruction (`hover = false`, `speed = 0.2`), not a hover instruction. -/
theorem command_timeout_hover_counterexample :
    (moveCmdCE.update mopsMoveCE 30001 (1/60) dsMoveW).2.base.completed = true ∧
      (moveCmdCE.update mopsMoveCE 30001 (1/60) dsMoveW).2.base.error =
        some "Command timeout" ∧
      (moveCmdCE.update mopsMoveCE 30001 (1/60) dsMoveW).1.hover = false ∧
      (moveCmdCE.update mopsMoveCE 30001 (1/60) dsMoveW).1.speed = 1/5 := by
  norm_num [moveCmdCE, mopsMoveCE, dsMoveW, MoveToCommand.mk', MoveToCommand.start,
    MoveToCommand.update, BaseCommand.mk', BaseCommand.start, BaseCommand.updateBase,
    BaseCommand.fail, BaseCommand.complete, DefaultConfig.positionTolerance,
    DefaultConfig.altitudeTolerance, DefaultConfig.maxSpeed, DefaultConfig.minSpeed,
    DefaultConfig.slowdownDistance, DefaultConfig.timeoutMs]

/-- C6: on every MoveTo tick whose arrival test has not debounced to
completion, the returned instruction is a motion instruction whose heading
is `atan2(dz, dx)` and whose speed matches the spec's three-zone profile
with overshoot guard and final floor (`specMoveSpeed`), evaluated at the
horizontal distance `d = sqrt(dx² + dz²)`. -/
theorem moveTo_speed_profile :
    ∀ (mops : MathOps) (now delta : ℚ) (ds : DroneStateSnapshot) (m : MoveToCommand),
      ¬(mops.sqrt ((m.targetX - ds.position.x) * (m.targetX - ds.position.x) +
            (m.targetZ - ds.position.z) * (m.targetZ - ds.position.z)) <
          m.positionTolerance ∧
        |m.targetY.getD 0 - ds.position.y| < m.altitudeTolerance ∧
        m.stableFrames + 1 ≥ 2) →
      (m.update mops now delta ds).1.hover = false ∧
      (m.update mops now delta ds).1.angle =
        mops.atan2 (m.targetZ - ds.position.z) (m.targetX - ds.position.x) ∧
      (m.update mops now delta ds).1.speed =
        specMoveSpeed m.minSpeed m.maxSpeed m.positionTolerance m.slowdownDistance
          (mops.sqrt ((m.targetX - ds.position.x) * (m.targetX - ds.position.x) +
            (m.targetZ - ds.position.z) * (m.targetZ - ds.position.z))) delta := by
  intro mops now delta ds m hno
  unfold MoveToCommand.update
  simp only []
  rw [if_neg hno]
  refine ⟨rfl, rfl, ?_⟩
  unfold specMoveSpeed
  simp only []
  generalize (mops.sqrt ((m.targetX - ds.position.x) * (m.targetX - ds.position.x) +
      (m.targetZ - ds.position.z) * (m.targetZ - ds.position.z))) = d
  split <;>
    rw [mul_comm m.positionTolerance 2, mul_comm m.minSpeed (0.8 : ℚ),
      show d / delta * (0.8 : ℚ) = 0.8 * d / delta from by ring]

/-- Witness for C6: the spec §8 scenario `moveTo({x:0.5, z:0.5})` from the
origin column at altitude 1, first tick. -/
theorem moveTo_speed_profile_witness :
    (moveCmdW.update mopsW6 1 (1/60) dsOriginW).1.hover = false ∧
      (moveCmdW.update mopsW6 1 (1/60) dsOriginW).1.angle =
        mopsW6.atan2 (moveCmdW.targetZ - dsOriginW.position.z)
          (moveCmdW.targetX - dsOriginW.position.x) ∧
      (moveCmdW.update mopsW6 1 (1/60) dsOriginW).1.speed =
        specMoveSpeed moveCmdW.minSpeed moveCmdW.maxSpeed moveCmdW.positionTolerance
          moveCmdW.slowdownDistance
          (mopsW6.sqrt
            ((moveCmdW.targetX - dsOriginW.position.x) *
                (moveCmdW.targetX - dsOriginW.position.x) +
              (moveCmdW.targetZ - dsOriginW.position.z) *
                (moveCmdW.targetZ - dsOriginW.position.z))) (1/60) :=
  moveTo_speed_profile mopsW6 1 (1/60) dsOriginW moveCmdW (by
    norm_num [moveCmdW, mopsW6, dsOriginW, MoveToCommand.mk', MoveToCommand.start,
      BaseCommand.mk', BaseCommand.start, DefaultConfig.positionTolerance])

/- One-step unfolding lemmas for the mission loop. -/

theorem missionLoop_cons_cancelled (env : MissionEnv) (wp : Waypoint)
    (rest : List Waypoint) (i : ℕ) (m : Mission) (disp : List ℕ)
    (hf : env.cancelledAt i = true) :
    missionLoop env (wp :: rest) i m disp =
      ({ m with
          state := .cancelledState
          settled := some (.error "Mission cancelled") }, disp) := by
  unfold missionLoop
  rw [hf]
  simp

theorem missionLoop_cons_timeout (env : MissionEnv) (wp : Waypoint)
    (rest : List Waypoint) (i : ℕ) (m : Mission) (disp : List ℕ)
    (hf : env.cancelledAt i = false)
    (ht : env.timeAt i - m.startTime.getD 0 > m.timeoutMs) :
    missionLoop env (wp :: rest) i m disp =
      ({ m with
          state := .failedState
          settled := some (.error "Mission timeout") }, disp) := by
  unfold missionLoop
  rw [hf]
  simp [if_pos ht]

theorem missionLoop_cons_ok (env : MissionEnv) (wp : Waypoint)
    (rest : List Waypoint) (i : ℕ) (m : Mission) (disp : List ℕ) (r : CmdResult)
    (hf : env.cancelledAt i = false)
    (ht : ¬(env.timeAt i - m.startTime.getD 0 > m.timeoutMs))
    (hd : env.dispatch i wp = .ok r) :
    missionLoop env (wp :: rest) i m disp =
      missionLoop env rest (i + 1)
        { m with
            currentIndex := i
            results := m.results ++ [⟨i, true, .ok r⟩] }
        (disp ++ [i]) := by
  conv_lhs => unfold missionLoop
  rw [hf]
  simp only [Bool.false_eq_true, if_false, if_neg ht, hd]

theorem missionLoop_cons_error_stop (env : MissionEnv) (wp : Waypoint)
    (rest : List Waypoint) (i : ℕ) (m : Mission) (disp : List ℕ) (e : String)
    (hf : env.cancelledAt i = false)
    (ht : ¬(env.timeAt i - m.startTime.getD 0 > m.timeoutMs))
    (hd : env.dispatch i wp = .error e)
    (hc : m.continueOnError = false) :
    missionLoop env (wp :: rest) i m disp =
      ({ m with
          currentIndex := i
          results := m.results ++ [⟨i, false, .error e⟩]
          state := .failedState
          settled := some (.error e) }, disp ++ [i]) := by
  unfold missionLoop
  rw [hf]
  simp only [Bool.false_eq_true, if_false, if_neg ht, hd, hc, Bool.not_false, if_true]

theorem missionLoop_cons_error_continue (env : MissionEnv) (wp : Waypoint)
    (rest : List Waypoint) (i : ℕ) (m : Mission) (disp : List ℕ) (e : String)
    (hf : env.cancelledAt i = false)
    (ht : ¬(env.timeAt i - m.startTime.getD 0 > m.timeoutMs))
    (hd : env.dispatch i wp = .error e)
    (hc : m.continueOnError = true) :
    missionLoop env (wp :: rest) i m disp =
      missionLoop env rest (i + 1)
        { m with
            currentIndex := i
            results := m.results ++ [⟨i, false, .error e⟩] }
        (disp ++ [i]) := by
  conv_lhs => unfold missionLoop
  rw [hf]
  simp only [Bool.false_eq_true, if_false, if_neg ht, hd, hc, Bool.not_true]

theorem missionLoop_completes (env : MissionEnv) :
    ∀ (wps : List Waypoint) (i : ℕ) (m : Mission) (disp : List ℕ),
      m.continueOnError = true →
      (∀ k, i ≤ k → k < i + wps.length → env.cancelledAt k = false) →
      (∀ k, i ≤ k → k < i + wps.length →
        ¬(env.timeAt k - m.startTime.getD 0 > m.timeoutMs)) →
      (missionLoop env wps i m disp).1.state = .completedState ∧
      (missionLoop env wps i m disp).1.results =
        m.results ++ wpRecordsFrom env wps i ∧
      (missionLoop env wps i m disp).1.settled = some (.ok
        { duration := env.timeAt (i + wps.length) - m.startTime.getD 0
          results := m.results ++ wpRecordsFrom env wps i
          waypointsCompleted :=
            ((m.results ++ wpRecordsFrom env wps i).filter (·.success)).length
          waypointsTotal := m.waypoints.length }) ∧
      (missionLoop env wps i m disp).2 = disp ++ List.range' i wps.length := by
  intro wps
  induction wps with
  | nil =>
    intro i m disp _ _ _
    simp [missionLoop, wpRecordsFrom]
  | cons wp rest ih =>
    intro i m disp hc hflag htime
    have hf0 : env.cancelledAt i = false := hflag i le_rfl (by simp)
    have ht0 : ¬(env.timeAt i - m.startTime.getD 0 > m.timeoutMs) :=
      htime i le_rfl (by simp)
    have harith : i + 1 + rest.length = i + (rest.length + 1) := by omega
    cases hd : env.dispatch i wp with
    | ok r =>
      rw [missionLoop_cons_ok env wp rest i m disp r hf0 ht0 hd]
      have := ih (i + 1)
        { m with
            currentIndex := i
            results := m.results ++ [⟨i, true, .ok r⟩] }
        (disp ++ [i]) hc
        (by intro k hk1 hk2; exact hflag k (by omega) (by simp; omega))
        (by intro k hk1 hk2; exact htime k (by omega) (by simp; omega))
      refine ⟨this.1, ?_, ?_, ?_⟩
      · rw [this.2.1]
        simp [wpRecordsFrom, hd, Except.toOption]
      · rw [this.2.2.1]
        simp [wpRecordsFrom, hd, Except.toOption, List.append_assoc, harith]
      · rw [this.2.2.2]
        simp [List.range'_succ, List.append_assoc]
    | error e =>
      rw [missionLoop_cons_error_continue env wp rest i m disp e hf0 ht0 hd hc]
      have := ih (i + 1)
        { m with
            currentIndex := i
            results := m.results ++ [⟨i, false, .error e⟩] }
        (disp ++ [i]) hc
        (by intro k hk1 hk2; exact hflag k (by omega) (by simp; omega))
        (by intro k hk1 hk2; exact htime k (by omega) (by simp; omega))
      refine ⟨this.1, ?_, ?_, ?_⟩
      · rw [this.2.1]
        simp [wpRecordsFrom, hd, Except.toOption]
      · rw [this.2.2.1]
        simp [wpRecordsFrom, hd, Except.toOption, List.append_assoc, harith]
      · rw [this.2.2.2]
        simp [List.range'_succ, List.append_assoc]

theorem missionLoop_failfast (env : MissionEnv) (e : String) :
    ∀ (pre : List Waypoint) (wfail : Waypoint) (post : List Waypoint) (i : ℕ)
      (m : Mission) (disp : List ℕ),
      m.continueOnError = false →
      (∀ k, i ≤ k → k ≤ i + pre.length → env.cancelledAt k = false) →
      (∀ k, i ≤ k → k ≤ i + pre.length →
        ¬(env.timeAt k - m.startTime.getD 0 > m.timeoutMs)) →
      allOkFrom env pre i →
      env.dispatch (i + pre.length) wfail = .error e →
      missionLoop env (pre ++ wfail :: post) i m disp =
        ({ m with
            currentIndex := i + pre.length
            results := m.results ++ wpRecordsFrom env pre i ++
              [⟨i + pre.length, false, .error e⟩]
            state := .failedState
            settled := some (.error e) },
         disp ++ List.range' i (pre.length + 1)) := by
  intro pre
  induction pre with
  | nil =>
    intro wfail post i m disp hc hflag htime _ hd
    simp only [List.nil_append, List.length_nil, Nat.add_zero] at hd ⊢
    rw [missionLoop_cons_error_stop env wfail post i m disp e
      (hflag i le_rfl (by omega)) (htime i le_rfl (by omega)) hd hc]
    simp [wpRecordsFrom]
  | cons wp pre' ih =>
    intro wfail post i m disp hc hflag htime hok hd
    obtain ⟨⟨r, hr⟩, hok'⟩ := hok
    simp only [List.cons_append]
    rw [missionLoop_cons_ok env wp (pre' ++ wfail :: post) i m disp r
      (hflag i le_rfl (by omega)) (htime i le_rfl (by omega)) hr]
    have harith : i + 1 + pre'.length = i + (pre'.length + 1) := by omega
    rw [ih wfail post (i + 1)
      { m with
          currentIndex := i
          results := m.results ++ [⟨i, true, .ok r⟩] }
      (disp ++ [i]) hc
      (by intro k hk1 hk2; exact hflag k (by omega) (by simp; omega))
      (by intro k hk1 hk2; exact htime k (by omega) (by simp; omega))
      hok' (by rw [harith]; simpa using hd)]
    simp [wpRecordsFrom, hr, Except.toOption, List.append_assoc, harith,
      List.range'_succ]

theorem missionLoop_state_ne_pending (env : MissionEnv) :
    ∀ (wps : List Waypoint) (i : ℕ) (m : Mission) (disp : List ℕ),
      (missionLoop env wps i m disp).1.state ≠ .pending := by
  intro wps
  induction wps with
  | nil =>
    intro i m disp
    simp [missionLoop]
  | cons wp rest ih =>
    intro i m disp
    by_cases hf : env.cancelledAt i = true
    · rw [missionLoop_cons_cancelled env wp rest i m disp hf]
      simp
    · have hf' : env.cancelledAt i = false := by simpa using hf
      by_cases ht : env.timeAt i - m.startTime.getD 0 > m.timeoutMs
      · rw [missionLoop_cons_timeout env wp rest i m disp hf' ht]
        simp
      · cases hd : env.dispatch i wp with
        | ok r =>
          rw [missionLoop_cons_ok env wp rest i m disp r hf' ht hd]
          exact ih _ _ _
        | error e =>
          by_cases hc : m.continueOnError = true
          · rw [missionLoop_cons_error_continue env wp rest i m disp e hf' ht hd hc]
            exact ih _ _ _
          · rw [missionLoop_cons_error_stop env wp rest i m disp e hf' ht hd
              (by simpa using hc)]
            simp

theorem missionLoop_dispatch_unflagged (env : MissionEnv) :
    ∀ (wps : List Waypoint) (i : ℕ) (m : Mission) (disp : List ℕ) (k : ℕ),
      k ∈ (missionLoop env wps i m disp).2 →
      k ∈ disp ∨ env.cancelledAt k = false := by
  intro wps
  induction wps with
  | nil =>
    intro i m disp k hk
    simp [missionLoop] at hk
    left; exact hk
  | cons wp rest ih =>
    intro i m disp k hk
    by_cases hf : env.cancelledAt i = true
    · rw [missionLoop_cons_cancelled env wp rest i m disp hf] at hk
      left; exact hk
    · have hf' : env.cancelledAt i = false := by simpa using hf
      have hmem : k ∈ disp ++ [i] → k ∈ disp ∨ env.cancelledAt k = false := by
        intro h
        rcases List.mem_append.mp h with h' | h'
        · left; exact h'
        · right
          simp at h'
          rw [h']
          exact hf'
      by_cases ht : env.timeAt i - m.startTime.getD 0 > m.timeoutMs
      · rw [missionLoop_cons_timeout env wp rest i m disp hf' ht] at hk
        left; exact hk
      · cases hd : env.dispatch i wp with
        | ok r =>
          rw [missionLoop_cons_ok env wp rest i m disp r hf' ht hd] at hk
          rcases ih _ _ _ _ hk with h | h
          · exact hmem h
          · right; exact h
        | error e =>
          by_cases hc : m.continueOnError = true
          · rw [missionLoop_cons_error_continue env wp rest i m disp e hf' ht hd hc]
              at hk
            rcases ih _ _ _ _ hk with h | h
            · exact hmem h
            · right; exact h
          · rw [missionLoop_cons_error_stop env wp rest i m disp e hf' ht hd
              (by simpa using hc)] at hk
            exact hmem hk

theorem DroneControl.cancel_fst_commandQueue {σ : Type} (ops : CmdOps σ)
    (c : DroneControl σ) : (c.cancel ops).1.commandQueue = [] := by
  unfold DroneControl.cancel
  cases hcur : c.currentCommand <;>
    simp [hcur, DroneControl.setState_commandQueue] <;>
    split <;>
    simp [DroneControl.setState_commandQueue]

theorem missionRun_pending (env : MissionEnv) (m : Mission) (h : m.state = .pending) :
    missionRun env m =
      ((missionLoop env m.waypoints 0
          { m with state := .running, startTime := some env.startAt } []).1,
       (missionLoop env m.waypoints 0
          { m with state := .running, startTime := some env.startAt } []).2,
       none) := by
  unfold missionRun
  rw [if_neg (by simp [h])]

/-- C7: via the environment abstraction of awaited controller calls, a
waypoint failure at index `pre.length` after successful prefix `pre`:
with `continueOnError = false` the mission ends Failed, rejects with that
failure, logs it, and dispatches exactly indices `0..pre.length`;
with `continueOnError = true` (and no cancellation/mission-timeout) every
waypoint is dispatched, each failure is logged with `success := false`
(third part), and the mission ends Completed with a result reporting
`waypointsCompleted` (count of successful records) vs `waypointsTotal`. -/
theorem mission_waypoint_failure_policy :
    (∀ (env : MissionEnv) (m : Mission) (pre : List Waypoint) (wfail : Waypoint)
        (post : List Waypoint) (e : String),
      m.state = .pending → m.continueOnError = false → m.results = [] →
      m.waypoints = pre ++ wfail :: post →
      (∀ k, k ≤ pre.length → env.cancelledAt k = false) →
      (∀ k, k ≤ pre.length → ¬(env.timeAt k - env.startAt > m.timeoutMs)) →
      allOkFrom env pre 0 →
      env.dispatch pre.length wfail = .error e →
      (missionRun env m).1.state = .failedState ∧
      (missionRun env m).1.settled = some (.error e) ∧
      (missionRun env m).1.results =
        wpRecordsFrom env pre 0 ++ [⟨pre.length, false, .error e⟩] ∧
      (missionRun env m).2.1 = List.range' 0 (pre.length + 1)) ∧
    (∀ (env : MissionEnv) (m : Mission),
      m.state = .pending → m.continueOnError = true → m.results = [] →
      (∀ k, k < m.waypoints.length → env.cancelledAt k = false) →
      (∀ k, k < m.waypoints.length → ¬(env.timeAt k - env.startAt > m.timeoutMs)) →
      (missionRun env m).1.state = .completedState ∧
      (missionRun env m).1.results = wpRecordsFrom env m.waypoints 0 ∧
      (missionRun env m).1.settled = some (.ok
        { duration := env.timeAt m.waypoints.length - env.startAt
          results := wpRecordsFrom env m.waypoints 0
          waypointsCompleted :=
            ((wpRecordsFrom env m.waypoints 0).filter (·.success)).length
          waypointsTotal := m.waypoints.length }) ∧
      (missionRun env m).2.1 = List.range' 0 m.waypoints.length) ∧
    (∀ (env : MissionEnv) (wp : Waypoint) (rest : List Waypoint) (i : ℕ)
        (e : String),
      env.dispatch i wp = .error e →
      wpRecordsFrom env (wp :: rest) i =
        ⟨i, false, .error e⟩ :: wpRecordsFrom env rest (i + 1)) := by
  refine ⟨?_, ?_, ?_⟩
  · intro env m pre wfail post e hpend hc hres hw hflag htime hok hd
    have hloop := missionLoop_failfast env e pre wfail post 0
      { m with state := .running, startTime := some env.startAt } [] hc
      (by intro k hk1 hk2; exact hflag k (by omega))
      (by intro k hk1 hk2; simpa using htime k (by omega))
      hok (by simpa using hd)
    rw [hw] at hloop
    rw [missionRun_pending env m hpend, hw, hloop]
    refine ⟨rfl, rfl, ?_, by simp⟩
    simp [hres]
  · intro env m hpend hc hres hflag htime
    have hloop := missionLoop_completes env m.waypoints 0
      { m with state := .running, startTime := some env.startAt } [] hc
      (by intro k hk1 hk2; exact hflag k (by simpa using hk2))
      (by intro k hk1 hk2; simpa using htime k (by simpa using hk2))
    rw [missionRun_pending env m hpend]
    refine ⟨hloop.1, ?_, ?_, ?_⟩
    · rw [hloop.2.1]; simp [hres]
    · rw [hloop.2.2.1]; simp [hres]
    · rw [hloop.2.2.2]; simp
  · intro env wp rest i e hd
    simp [wpRecordsFrom, hd, Except.toOption]

/-- Witness for C7: three waypoints, the middle one failing. -/
theorem mission_waypoint_failure_policy_witness :
    (missionRun envFailW missionW3).1.state = .failedState ∧
      (missionRun envFailW missionW3).2.1 = [0, 1] ∧
      (missionRun envFailW missionW3c).1.state = .completedState ∧
      (missionRun envFailW missionW3c).2.1 = [0, 1, 2] := by
  have h1 := mission_waypoint_failure_policy.1 envFailW missionW3 [{}] {} [{}]
    "Command timeout" rfl rfl rfl rfl
    (by intro k _; rfl)
    (by intro k _; norm_num [envFailW, missionW3])
    ⟨⟨.rotateDone 0, rfl⟩, trivial⟩ rfl
  have h2 := mission_waypoint_failure_policy.2.1 envFailW missionW3c rfl rfl rfl
    (by intro k _; rfl)
    (by intro k _; norm_num [envFailW, missionW3c])
  refine ⟨h1.1, ?_, h2.1, ?_⟩
  · rw [h1.2.2.2]; decide
  · rw [h2.2.2.2]; decide

/-- C8 (amended): once the cancellation flag is observed at the head of a
loop iteration the mission terminates Cancelled there, dispatching nothing
further; every dispatched waypoint was dispatched while the flag was still
down; and `Mission.cancel` sets the flag and forwards to the controller's
`cancel()` (clearing its current command and queue).  The claimed
unconditional Cancelled terminal state fails when the cancellation instead
rejects the in-flight waypoint under `continueOnError = false` — see the
counterexample, which ends Failed. -/
theorem mission_cancellation :
    (∀ (env : MissionEnv) (wp : Waypoint) (rest : List Waypoint) (i : ℕ)
        (m : Mission) (disp : List ℕ),
      env.cancelledAt i = true →
      missionLoop env (wp :: rest) i m disp =
        ({ m with
            state := .cancelledState
            settled := some (.error "Mission cancelled") }, disp)) ∧
    (∀ (env : MissionEnv) (wps : List Waypoint) (i : ℕ) (m : Mission)
        (disp : List ℕ) (k : ℕ),
      k ∈ (missionLoop env wps i m disp).2 →
      k ∈ disp ∨ env.cancelledAt k = false) ∧
    (∀ (ops : CmdOps AnyCommand) (control : DroneControl AnyCommand),
      (missionCancel ops control).1 = true ∧
      (missionCancel ops control).2.currentCommand = none ∧
      (missionCancel ops control).2.commandQueue = []) :=
  ⟨fun env wp rest i m disp hf =>
      missionLoop_cons_cancelled env wp rest i m disp hf,
   fun env wps i m disp k hk =>
      missionLoop_dispatch_unflagged env wps i m disp k hk,
   fun ops control =>
      ⟨rfl, DroneControl.cancel_fst_currentCommand ops control,
        DroneControl.cancel_fst_commandQueue ops control⟩⟩

/-- Witness for C8: a loop iteration beginning with the flag up cancels
immediately, and `missionCancel` reports the flag set. -/
theorem mission_cancellation_witness :
    missionLoop envCancelW [{}] 5 missionC8 [] =
      ({ missionC8 with
          state := .cancelledState
          settled := some (.error "Mission cancelled") }, []) ∧
      (missionCancel (anyOps mops0) (mkDroneControl movW)).1 = true :=
  ⟨mission_cancellation.1 envCancelW {} [] 5 missionC8 [] rfl,
   (mission_cancellation.2.2 (anyOps mops0) (mkDroneControl movW)).1⟩

/-- Counterexample to C8 as stated: cancel raised while waypoint 0 is in
flight (the controller call rejects with the cancellation error, the flag
reads true from iteration 1 on); with `continueOnError = false` the mission
terminates Failed, not Cancelled — though nothing further is dispatched. -/
theorem mission_cancellation_counterexample :
    (missionRun envC8 missionC8).1.state = .failedState ∧
      (missionRun envC8 missionC8).1.state ≠ .cancelledState ∧
      (missionRun envC8 missionC8).2.1 = [0] := by
  norm_num [missionRun, missionLoop, envC8, missionC8]
  decide

/-- C10: `run` succeeds at most once per Mission: from any non-Pending state
it throws `Mission already started` leaving the mission record untouched,
and a successful run leaves the state non-Pending (so a second `run`
throws). -/
theorem mission_run_single_use :
    (∀ (env : MissionEnv) (m : Mission), m.state ≠ .pending →
      missionRun env m = (m, [], some "Mission already started")) ∧
    (∀ (env : MissionEnv) (m : Mission), m.state = .pending →
      (missionRun env m).2.2 = none ∧ (missionRun env m).1.state ≠ .pending) := by
  constructor
  · intro env m h
    unfold missionRun
    rw [if_pos h]
  · intro env m h
    rw [missionRun_pending env m h]
    exact ⟨rfl, missionLoop_state_ne_pending env _ _ _ _⟩

/-- Witness for C10: a mission already Running throws and is returned
unchanged. -/
theorem mission_run_single_use_witness :
    missionRun envCancelW missionRunningW =
      (missionRunningW, [], some "Mission already started") :=
  mission_run_single_use.1 envCancelW missionRunningW (by decide)
